import Mathlib

/-!
Verification development for the message transcoder of `src/src/message.ts`
(namespace `Message` of the repository): the tokenizer/tag-resolver
`Message.parse` and the encoder `Message.format`, embedded shallowly.

Conventions of the embedding:
* JavaScript strings are Lean `String`s; character-level scanning works on
  `String.data : List Char`.
* JavaScript dynamic objects that the code builds field by field are embedded
  as Lean structures with `Option` fields for properties that may be absent
  (`undefined`); attribute maps built by spreading are ordered
  association lists, mirroring JS insertion order.
* Code paths that throw at runtime (property access on `undefined`, method
  call on a non-string) are embedded with `Except JsError`.
* The two external effects of `format` (`crypto.randomInt` and `Date.now()`)
  are passed in explicitly through an `Env` record holding one entropy value
  and one clock reading per call site, in call order.
-/

namespace Message

/-! Character constants. The tokenizer regex of `Message.parse` (line 132)
recognises five paired quote styles plus angle-bracket tags. -/

/-- Straight double quote `"`. -/
def dqChar : Char := Char.ofNat 34
/-- Straight single quote. -/
def sqChar : Char := Char.ofNat 39
/-- Backtick. -/
def bqChar : Char := Char.ofNat 96
/-- Left curly double quote (U+201C). -/
def cdqL : Char := Char.ofNat 8220
/-- Right curly double quote (U+201D). -/
def cdqR : Char := Char.ofNat 8221
/-- Left curly single quote (U+2018). -/
def csqL : Char := Char.ofNat 8216
/-- Right curly single quote (U+2019). -/
def csqR : Char := Char.ofNat 8217

/-- For an opener character of the tokenizer regex, the corresponding closing
character; `none` for characters that open no alternative. Mirrors the
alternatives of `/("[^"]*?"|'[^']*?'|`[^`]*?`|“[^”]*?”|‘[^’]*?’|<[^>]+?>)/`:
each alternative starts with a distinct character, so the first character
determines the only alternative that can apply at a position. -/
def closerFor (c : Char) : Option Char :=
  if c = dqChar then some dqChar
  else if c = sqChar then some sqChar
  else if c = bqChar then some bqChar
  else if c = cdqL then some cdqR
  else if c = csqL then some csqR
  else if c = '<' then some '>'
  else none

/-- Index of the first occurrence of `c` in the list, if any (the lazy
quantifiers `*?`/`+?` of the regex stop at the nearest closing character). -/
def idxOf? (c : Char) : List Char → Option Nat
  | [] => none
  | x :: rest =>
    if x = c then some 0
    else
      match idxOf? c rest with
      | none => none
      | some j => some (j + 1)

/-- Scan for the leftmost regex match starting at absolute position `pos`.
Returns the absolute start index and the matched run. The angle-bracket
alternative `<[^>]+?>` requires a non-empty interior, hence the `j = 0`
rejection for `<`; the quote alternatives allow an empty interior.
The source computes the start index as `template.indexOf(match)` (line 136);
for a leftmost regex match the found run cannot occur at any earlier index
(its interior contains no closer, so an earlier occurrence would itself have
been a match), so `indexOf` returns exactly the match position modelled here. -/
def scanMatch : List Char → Nat → Option (Nat × List Char)
  | [], _ => none
  | c :: rest, pos =>
    match closerFor c with
    | none => scanMatch rest (pos + 1)
    | some cl =>
      match idxOf? cl rest with
      | none => scanMatch rest (pos + 1)
      | some j =>
        if c = '<' ∧ j = 0 then scanMatch rest (pos + 1)
        else some (pos, c :: rest.take (j + 1))

/-- One step of the tokenizer's match search: `template.match(regex)` plus
`template.indexOf(match)` (lines 134-136). -/
def findTag (l : List Char) : Option (Nat × List Char) := scanMatch l 0

/-! String helpers mirroring the JavaScript string methods used by the code. -/

/-- Whether the first list is a prefix of the second (Boolean). -/
def startsWithChars : List Char → List Char → Bool
  | [], _ => true
  | _ :: _, [] => false
  | p :: ps, c :: cs => p = c && startsWithChars ps cs

/-- JavaScript `s.startsWith(p)`. -/
def strStartsWith (s p : String) : Bool := startsWithChars p.data s.data

/-- Whether `pat` occurs as a contiguous run inside `l` (Boolean). -/
def containsChars : List Char → List Char → Bool
  | [], pat => pat.isEmpty
  | c :: rest, pat => startsWithChars pat (c :: rest) || containsChars rest pat

/-- Whether `pat` occurs as a substring of `s`. -/
def containsSub (s pat : String) : Bool := containsChars s.data pat.data

/-- Replace the first occurrence of `pat` in the list by `rep`; JavaScript
`str.replace(pat, rep)` with a string pattern replaces only the first
occurrence. -/
def replaceFirstChars (pat rep : List Char) : List Char → List Char
  | [] => if startsWithChars pat [] then rep else []
  | c :: rest =>
    if startsWithChars pat (c :: rest) then rep ++ (c :: rest).drop pat.length
    else c :: replaceFirstChars pat rep rest

/-- JavaScript `s.replace(pat, rep)` (string pattern: first occurrence only). -/
def replaceFirstStr (s pat rep : String) : String :=
  String.mk (replaceFirstChars pat.data rep.data s.data)

/-- JavaScript `s.toLowerCase()`, restricted to the ASCII mapping that
`Char.toLower` implements (all keys processed by the code are ASCII). -/
def toLowerString (s : String) : String := String.mk (s.data.map Char.toLower)

/-- JavaScript `s.split(sep)` for a one-character separator (the code only
splits on `','`, `'='` and `'/'`). Splitting the empty string yields `[""]`. -/
def splitOnChar (sep : Char) : List Char → List (List Char)
  | [] => [[]]
  | c :: rest =>
    if c = sep then [] :: splitOnChar sep rest
    else
      match splitOnChar sep rest with
      | [] => [[c]]
      | g :: gs => (c :: g) :: gs

/-- JavaScript `parts.join(sep)` for a one-character separator. -/
def joinWithChar (sep : Char) : List (List Char) → List Char
  | [] => []
  | [g] => g
  | g :: g2 :: gs => g ++ sep :: joinWithChar sep (g2 :: gs)

/-- JavaScript `const [key, ...values] = attr.split('='); [key, values.join('=')]`:
the attribute splits on the first `=`, the remainder (with any further `=`
restored) is the value (lines 168-169). -/
def splitFirstEq (s : String) : String × String :=
  match splitOnChar '=' s.data with
  | [] => ("", "")
  | k :: rest => (String.mk k, String.mk (joinWithChar '=' rest))

/-- Opening/closing pairs of the five quote styles. -/
def quotePairs : List (Char × Char) :=
  [(dqChar, dqChar), (sqChar, sqChar), (bqChar, bqChar), (cdqL, cdqR), (csqL, csqR)]

/-- Modelled from the spec: `trimQuote` is imported from the repository module
`@/utils`, which is not under `src/`. Per the spec (§4.1), attribute values
have one layer of surrounding quote characters stripped if present, using the
same quote-style set as the tokenizer (straight double/single, backtick,
curly double/single). -/
def trimQuote (s : String) : String :=
  match s.data with
  | [] => s
  | c :: rest =>
    match rest.getLast? with
    | none => s
    | some last =>
      if quotePairs.any (fun p => p.1 = c && p.2 = last) then
        String.mk ((c :: rest).drop 1 |>.dropLast)
      else s

/-! Data model of the decoded side. JavaScript builds elements as dynamic
objects (`{type, ...attrs}`); the embedding keeps the `type` discriminator and
an ordered association list of the remaining fields. -/

/-- A JavaScript value as it appears in a decoded element's fields: a string,
a nested object (used by the quoted-run branch, line 176-178), or
`undefined`. -/
inductive JVal where
  | str (s : String)
  | obj (fields : List (String × JVal))
  | undef
deriving Repr

/-- One decoded message element: the `type` field plus the remaining fields in
insertion order. Two JS object subtleties are not reproduced, being
unreachable for the inputs considered: a raw attribute key literally named
`type` would overwrite the discriminator through the spread of line 165, and
`Object.fromEntries` keeps only the last of duplicate keys, while this
association list keeps duplicates in order. -/
structure Elem where
  type : String
  fields : List (String × JVal)
deriving Repr

/-- A runtime error raised by the JavaScript code. -/
inductive JsError where
  | typeError (msg : String)
deriving Repr, DecidableEq

/-- One raw attribute token as held by the `attrs` array of `Message.parse`:
normally a string, but the `@everyone` branch (line 159) stores the two-element
array `['all', true]` instead. -/
inductive AttrTok where
  | str (s : String)
  | pair (k : String) (v : Bool)
deriving Repr

/-- One record of `payload.mentions`: its fields in insertion order. -/
abbrev Mention := List (String × String)

/-- Property `id` of a mention record, as read by `u.id` (line 155). -/
def mentionId (u : Mention) : Option String := (u.find? (fun kv => kv.1 == "id")).map (·.2)

/-- One record of `payload.attachments`: the `content_type` field plus the
remaining fields (`...data`) in insertion order. -/
structure Attachment where
  content_type : String
  fields : List (String × String)
deriving Repr

/-- The inbound payload as read by `Message.parse`: `content` (defaulted to
the empty string by `payload.content || ''`), and the optional `mentions` and
`attachments` lists. The `delete payload.attachments` / `delete payload.mentions`
side effects (lines 204-205) only affect the caller's object and are not
modelled. -/
structure Payload where
  content : Option String
  mentions : Option (List Mention)
  attachments : Option (List Attachment)

/-! Tag resolver (lines 147-172 of `Message.parse`). -/

/-- Test for the shorthand pattern `/^[a-z]+:[0-9]+$/` (line 161). -/
def isShorthand (s : String) : Bool :=
  let isLow : Char → Bool := fun c => 97 ≤ c.toNat && c.toNat ≤ 122
  let isDig : Char → Bool := fun c => 48 ≤ c.toNat && c.toNat ≤ 57
  let lows := s.data.takeWhile isLow
  match s.data.dropWhile isLow with
  | c :: digits => !lows.isEmpty && c = ':' && !digits.isEmpty && digits.all isDig
  | [] => false

/-- JavaScript `type.split(':')[1]` (line 162). -/
def shorthandDigits (s : String) : String :=
  String.mk ((splitOnChar ':' s.data).getD 1 [])

/-- Normalisation of one tag's raw `type` and attribute tokens, mirroring the
`if`/`else if` chain of lines 148-164. The `@!` branch reads
`payload.mentions.find(...)`: when `mentions` is absent this is a property
access on `undefined` and throws a `TypeError`. The `@everyone` branch stores
the array `['all', true]` as the sole attribute token. -/
def resolveTag (mentions : Option (List Mention)) (type0 : String)
    (attrs0 : List String) : Except JsError (String × List AttrTok) :=
  if strStartsWith type0 "faceType" then
    .ok ("face", (attrs0.map (fun a => replaceFirstStr a "faceId" "id")).map AttrTok.str)
  else if strStartsWith type0 "@" then
    if strStartsWith type0 "@!" then
      match mentions with
      | none => .error (.typeError "Cannot read properties of undefined (reading find)")
      | some ms =>
        let id := type0.drop 2
        let u := (ms.find? (fun u => mentionId u == some id)).getD []
        .ok ("at", (u.map (fun kv => kv.1 ++ "=" ++ kv.2)).map AttrTok.str)
    else if type0 == "@everyone" then
      .ok ("at", [AttrTok.pair "all" true])
    else
      .ok (type0, attrs0.map AttrTok.str)
  else if isShorthand type0 then
    .ok ("face", [AttrTok.str ("id=" ++ shorthandDigits type0)])
  else
    .ok (type0, attrs0.map AttrTok.str)

/-- One attribute token turned into an element field, mirroring
`attrs.map(attr => { const [key, ...values] = attr.split('='); return
[key.toLowerCase(), trimQuote(values.join('='))] })` (lines 167-170). A
non-string token (the `['all', true]` array) has no `split` method: calling it
throws a `TypeError`. -/
def attrEntry : AttrTok → Except JsError (String × JVal)
  | .str a =>
    let kv := splitFirstEq a
    .ok (toLowerString kv.1, JVal.str (trimQuote kv.2))
  | .pair _ _ => .error (.typeError "attr.split is not a function")

/-- The element fields built from the attribute tokens, left to right, with
the first failing token's error propagated (JavaScript `map` evaluates its
callback sequentially and the exception aborts the call). -/
def buildAttrs : List AttrTok → Except JsError (List (String × JVal))
  | [] => .ok []
  | t :: rest =>
    match attrEntry t with
    | .error e => .error e
    | .ok kv =>
      match buildAttrs rest with
      | .error e => .error e
      | .ok l => .ok (kv :: l)

/-- Rendering of one attribute token inside the brief marker
`` `<${type}:${attrs.join(',')}>` `` (line 172); JavaScript `join` stringifies
the `['all', true]` array as `"all,true"`. -/
def attrTokStr : AttrTok → String
  | .str a => a
  | .pair k v => k ++ "," ++ (if v then "true" else "false")

/-- Resolution of one tag given its raw `type` and attribute tokens: the
canonical element plus the brief marker. The element construction (line 165,
`result.push`) is evaluated before the brief update (line 172), so an error
thrown while building the attributes aborts before `brief` grows. -/
def resolveParts (mentions : Option (List Mention)) (type0 : String)
    (attrs0 : List String) : Except JsError (Elem × String) :=
  match resolveTag mentions type0 attrs0 with
  | .error e => .error e
  | .ok (ty, toks) =>
    match buildAttrs toks with
    | .error e => .error e
    | .ok fields =>
      .ok (⟨ty, fields⟩,
        "<" ++ ty ++ ":" ++ String.mk (joinWithChar ',' (toks.map (fun t => (attrTokStr t).data))) ++ ">")

/-- Processing of one matched angle-bracket tag: `match.slice(1, -1)` split on
`','` into `type` and attribute tokens (line 147), then resolution. -/
def resolveMatch (mentions : Option (List Mention)) (m : List Char) :
    Except JsError (Elem × String) :=
  let parts := splitOnChar ',' (m.drop 1 |>.dropLast)
  resolveParts mentions (String.mk (parts.headD [])) (parts.tail.map String.mk)

/-! The tokenizer loop (lines 133-189). -/

/-- The code after the scan loop exits: any remaining text becomes a final
`Text` element appended to both the element sequence and the brief
(lines 183-189). -/
def finishTail (template : List Char) (acc : List Elem) (brief : String) :
    Except JsError (List Elem × String) :=
  if template.isEmpty then .ok (acc, brief)
  else .ok (acc ++ [⟨"text", [("text", JVal.str (String.mk template))]⟩],
            brief ++ String.mk template)

/-- The scan loop of `Message.parse`. The `fuel` argument is an upper bound on
the remaining template length, used only to make the recursion structural:
every iteration consumes at least two characters (`findTag_bound`), so with
`fuel = template.length` the zero-fuel case is reached only with an empty
template, where it agrees with the loop exit (`parseGo_fuel_irrel` below makes
this exact). Per iteration: text before the match becomes a `Text` element
(lines 138-144, pushed with a top-level `text` field); a match starting with
`<` is resolved as a tag; any other match is a quoted run, pushed as
`{type: "text", data: {text: match}}` (lines 174-179 — note the `data`
wrapper) and appended verbatim to the brief. -/
def parseGo (mentions : Option (List Mention)) :
    Nat → List Char → List Elem → String → Except JsError (List Elem × String)
  | 0, template, acc, brief => finishTail template acc brief
  | n + 1, template, acc, brief =>
    match findTag template with
    | none => finishTail template acc brief
    | some (i, m) =>
      let prevText := template.take i
      let acc2 :=
        if prevText.isEmpty then acc
        else acc ++ [⟨"text", [("text", JVal.str (String.mk prevText))]⟩]
      let brief2 := if prevText.isEmpty then brief else brief ++ String.mk prevText
      let rest := template.drop (i + m.length)
      if startsWithChars ['<'] m then
        match resolveMatch mentions m with
        | .error e => .error e
        | .ok (elem, marker) => parseGo mentions n rest (acc2 ++ [elem]) (brief2 ++ marker)
      else
        parseGo mentions n rest
          (acc2 ++ [⟨"text", [("data", JVal.obj [("text", JVal.str (String.mk m))])]⟩])
          (brief2 ++ String.mk m)

/-! Attachment adapter (lines 191-203). -/

/-- JavaScript `a || b` on two possibly-absent string properties: the first
operand is returned unless it is falsy (`undefined` or the empty string). -/
def jsOrStr (a b : Option String) : Option String :=
  match a with
  | some s => if s = "" then b else some s
  | none => b

/-- Assignment of property `k` in an object literal when `k` may already have
been introduced by a spread: the value is updated in place if the key exists,
otherwise the key is appended (JS insertion-order semantics). -/
def setField (l : List (String × JVal)) (k : String) (v : JVal) : List (String × JVal) :=
  if l.any (fun kv => kv.1 == k) then l.map (fun kv => if kv.1 == k then (k, v) else kv)
  else l ++ [(k, v)]

/-- Lookup of a string property on an attachment's remaining fields. -/
def lookupField (l : List (String × String)) (k : String) : Option String :=
  (l.find? (fun kv => kv.1 == k)).map (·.2)

/-- An `Option String` as a JS value (`undefined` when absent). -/
def jvOf : Option String → JVal
  | some s => JVal.str s
  | none => JVal.undef

/-- One attachment record turned into a media element (lines 193-200):
`type` is the part of `content_type` before `/`; `src` and `url` are
cross-defaulted with `||`. -/
def attachElem (a : Attachment) : Elem :=
  let ty := String.mk ((splitOnChar '/' a.content_type.data).headD [])
  let srcV := jsOrStr (lookupField a.fields "src") (lookupField a.fields "url")
  let urlV := jsOrStr (lookupField a.fields "url") (lookupField a.fields "src")
  ⟨ty, setField (setField (a.fields.map (fun kv => (kv.1, JVal.str kv.2))) "src" (jvOf srcV))
        "url" (jvOf urlV)⟩

/-- The brief marker of one attachment (line 201): `` `<$${type},${...}>` ``
using the record's remaining fields in original order. -/
def attachBrief (a : Attachment) : String :=
  let ty := String.mk ((splitOnChar '/' a.content_type.data).headD [])
  "<$" ++ ty ++ "," ++
    String.mk (joinWithChar ',' (a.fields.map (fun kv => (kv.1 ++ "=" ++ kv.2).data))) ++ ">"

/-- The decoder `Message.parse` (lines 127-207): tokenizer loop over
`payload.content || ''`, then one appended media element per attachment.
Returns the element sequence and the brief, or the runtime error thrown. -/
def parse (payload : Payload) : Except JsError (List Elem × String) :=
  let template := (match payload.content with | some s => s | none => "")
  match parseGo payload.mentions template.data.length template.data [] "" with
  | .error e => .error e
  | .ok (elems, brief) =>
    match payload.attachments with
    | none => .ok (elems, brief)
    | some atts =>
      .ok (elems ++ atts.map attachElem, brief ++ String.join (atts.map attachBrief))

/-! The encoder `Message.format` (lines 209-324). -/

/-- A quote reference: `{message_id?, event_id?}`. -/
structure Quotable where
  message_id : Option String
  event_id : Option String
deriving Repr, DecidableEq

/-- An outbound message element as consumed by the `switch` of `format`
(lines 236-300), with the fields each case reads; `other` stands for any
unrecognised `type`, which the `switch` silently ignores. -/
inductive SendElem where
  | text (text : String)
  | at (id : Option String)
  | link (channel_id : String)
  | face (id : String)
  | reply (message_id : String)
  | image (file : String)
  | audio (file : String)
  | video (file : String)
  | markdown (content : String)
  | button (data : String)
  | other (t : String)
deriving Repr, DecidableEq

/-- One entry of the (normalised) `Sendable` list: a bare string or an
element. -/
inductive SendItem where
  | str (s : String)
  | elem (e : SendElem)
deriving Repr, DecidableEq

/-- Normalisation of one entry: a bare string becomes a `text` element
(lines 230-235). -/
def normItem : SendItem → SendElem
  | .str s => SendElem.text s
  | .elem e => e

/-- The transcript payload (`messages`, lines 215-221). `keyboard` holds the
rows' button lists, i.e. the `content.rows[i].buttons` of the built structure
(lines 307-315). -/
structure MsgPayload where
  msg_type : Nat
  content : String
  msg_id : Option String
  msg_seq : Nat
  timestamp : Nat
  markdown : Option String
  keyboard : Option (List (List String))
deriving Repr, DecidableEq

/-- The file payload (`files`, lines 222-226); fields beyond the seeded three
are only set by the media case (lines 276-287). -/
structure FilePayload where
  msg_id : Option String
  msg_seq : Nat
  timestamp : Nat
  file_type : Option Nat
  content : Option String
  url : Option String
  event_id : Option String
  srv_send_msg : Bool
deriving Repr, DecidableEq

/-- The result of `format` (lines 317-323). -/
structure EncodeResult where
  messages : MsgPayload
  hasFiles : Bool
  hasMessages : Bool
  brief : String
  files : FilePayload
deriving Repr, DecidableEq

/-- The two non-deterministic external reads of `format`, in call order:
`randomInt` entropy for `messages.msg_seq` (line 219) and for
`files.msg_seq` (line 224), and the `Date.now()` millisecond readings for
`messages.timestamp` (line 220) and `files.timestamp` (line 225). -/
structure Env where
  r1 : Nat
  r2 : Nat
  ms1 : Nat
  ms2 : Nat
deriving Repr, DecidableEq

/-- Node's `crypto.randomInt(min, max)`: a uniformly random integer of the
half-open range `[min, max)` — the upper bound is exclusive (documented Node
behaviour). Embedded with an explicit entropy input `r`; as `r` ranges over
the naturals the result ranges exactly over `[min, max)`. -/
def randomInt (min max r : Nat) : Nat := min + r % (max - min)

/-- JavaScript `Number((ms / 1000).toFixed(0))` where `ms = Date.now()`:
`toFixed(0)` rounds to the nearest integer (ties away from zero, and `ms` is
nonnegative), i.e. `(ms + 500) / 1000` in integer arithmetic. -/
def toEpochSeconds (ms : Nat) : Nat := (ms + 500) / 1000

/-- The helper `getType` (lines 209-211):
`['image', 'video', 'audio'].indexOf(type) + 1`. -/
def getType (t : String) : Nat :=
  if t == "image" then 1 else if t == "video" then 2 else if t == "audio" then 3 else 0

/-- JavaScript `if (messages.content) { messages.content += x } else
{ messages.content = x }`: append when the current content is truthy
(non-empty), assign otherwise. -/
def jsAppendContent (cur add : String) : String :=
  if cur == "" then add else cur ++ add

/-- The mention rendering `elem.id || 'everyone'` of the `at` case
(lines 244-248): an absent or empty id is replaced by `everyone`. -/
def atIdStr : Option String → String
  | some s => if s == "" then "everyone" else s
  | none => "everyone"

/-- JSON.stringify of a button's `data` (line 298), restricted to the quote
and backslash escapes (sufficient for the payloads considered here). -/
def jsonStringify (s : String) : String :=
  String.mk [dqChar] ++
    String.join (s.data.map (fun c =>
      if c = dqChar then String.mk [Char.ofNat 92, dqChar]
      else if c = Char.ofNat 92 then String.mk [Char.ofNat 92, Char.ofNat 92]
      else String.mk [c])) ++
  String.mk [dqChar]

/-- The mutable state threaded through the routing pass of `format`: the two
payload aggregates, the two flags, the button side list and the brief. -/
structure FmtState where
  messages : MsgPayload
  files : FilePayload
  hasMessages : Bool
  hasFiles : Bool
  buttons : List String
  brief : String
deriving Repr, DecidableEq

/-- The shared body of the `image`/`audio`/`video` case (lines 276-287); note
that it re-assigns `files.msg_id` from the quote reference (line 283),
overwriting any value a preceding `reply` element stored there. -/
def mediaUpdate (source : Quotable) (st : FmtState) (ty f : String) : FmtState :=
  { st with
    files := { st.files with
      file_type := some (getType ty), content := some "file", url := some f,
      event_id := source.event_id, msg_id := source.message_id, srv_send_msg := true },
    hasFiles := true,
    brief := st.brief ++ "<" ++ ty ++ ",file=" ++ f ++ ">" }

/-- One iteration of the routing `switch` (lines 236-300). -/
def formatElem (source : Quotable) (st : FmtState) : SendElem → FmtState
  | .reply mid =>
    { st with
      messages := { st.messages with msg_id := some mid },
      files := { st.files with msg_id := some mid },
      brief := st.brief ++ "<$reply,message_id=" ++ mid ++ ">" }
  | .at id =>
    { st with
      messages := { st.messages with
        content := jsAppendContent st.messages.content ("<@" ++ atIdStr id ++ ">") },
      brief := st.brief ++ "<$at,user=" ++ atIdStr id ++ ">" }
  | .link ch =>
    { st with
      messages := { st.messages with
        content := jsAppendContent st.messages.content ("<#" ++ ch ++ ">") },
      brief := st.brief ++ "<$link,channel=" ++ ch ++ ">" }
  | .text t =>
    { st with
      messages := { st.messages with content := jsAppendContent st.messages.content t },
      hasMessages := true,
      brief := st.brief ++ t }
  | .face id =>
    { st with
      messages := { st.messages with
        content := jsAppendContent st.messages.content ("<emoji:" ++ id ++ ">") },
      hasMessages := true,
      brief := st.brief ++ "<$face,id=" ++ id ++ ">" }
  | .image f => mediaUpdate source st "image" f
  | .audio f => mediaUpdate source st "audio" f
  | .video f => mediaUpdate source st "video" f
  | .markdown c =>
    { st with
      messages := { st.messages with markdown := some c, msg_type := 2 },
      hasMessages := true,
      brief := st.brief ++ "<#markdown,content=" ++ c ++ ">" }
  | .button d =>
    { st with
      buttons := st.buttons ++ [d],
      brief := st.brief ++ "<$button,data=" ++ jsonStringify d ++ ">" }
  | .other _ => st

/-- One loop iteration including the string normalisation (lines 229-235). -/
def stepItem (source : Quotable) (st : FmtState) (i : SendItem) : FmtState :=
  formatElem source st (normItem i)

/-- The button batcher (lines 302-306): `for (let i = 0; i < buttons.length;
i += 4) rows.push(buttons.slice(i, i + 4))` — consecutive rows of four. -/
def chunk4 {α : Type} : List α → List (List α)
  | [] => []
  | [a] => [[a]]
  | [a, b] => [[a, b]]
  | [a, b, c] => [[a, b, c]]
  | a :: b :: c :: d :: rest => [a, b, c, d] :: chunk4 rest

/-- The seeded state before the routing pass (lines 214-227): both aggregates
carry the quote reference's `msg_id`, their own `randomInt(1, 1000000)` draw
and their own `Date.now()` reading; flags false, no buttons, empty brief. -/
def initState (source : Quotable) (env : Env) : FmtState :=
  { messages :=
      { msg_type := 0, content := "", msg_id := source.message_id,
        msg_seq := randomInt 1 1000000 env.r1, timestamp := toEpochSeconds env.ms1,
        markdown := none, keyboard := none },
    files :=
      { msg_id := source.message_id, msg_seq := randomInt 1 1000000 env.r2,
        timestamp := toEpochSeconds env.ms2, file_type := none, content := none,
        url := none, event_id := none, srv_send_msg := false },
    hasMessages := false, hasFiles := false, buttons := [], brief := "" }

/-- The encoder `Message.format` on an element list: seeds the two aggregates
(lines 215-226), folds the routing pass over the elements, then attaches the
keyboard when the button list is non-empty (lines 302-316). -/
def format (message : List SendItem) (source : Quotable) (env : Env) : EncodeResult :=
  let stF := message.foldl (stepItem source) (initState source env)
  let messagesF :=
    if stF.buttons.isEmpty then stF.messages
    else { stF.messages with keyboard := some (chunk4 stF.buttons) }
  { messages := messagesF, hasFiles := stF.hasFiles, hasMessages := stF.hasMessages,
    brief := stF.brief, files := stF.files }

/-- A non-array `Sendable` is wrapped into a one-element list (line 228). -/
def formatSingle (m : SendItem) (source : Quotable) (env : Env) : EncodeResult :=
  format [m] source env

/-! Observations over an element list, used to state the routing properties of
`format`. -/

/-- The button data contributed by one item (the `button` case, line 297). -/
def btnOf (i : SendItem) : List String :=
  match normItem i with
  | .button d => [d]
  | _ => []

/-- All button data of a message, in order. -/
def buttonsOf : List SendItem → List String
  | [] => []
  | i :: rest => btnOf i ++ buttonsOf rest

/-- Whether an item is a `reply` element. -/
def isReplyItem (i : SendItem) : Bool :=
  match normItem i with
  | .reply _ => true
  | _ => false

/-- Whether an item is a media (`image`/`audio`/`video`) element. -/
def isMediaItem (i : SendItem) : Bool :=
  match normItem i with
  | .image _ => true
  | .audio _ => true
  | .video _ => true
  | _ => false

/-- Whether an item is an `at` or `link` element. -/
def isAtOrLinkItem (i : SendItem) : Bool :=
  match normItem i with
  | .at _ => true
  | .link _ => true
  | _ => false

/-- Whether an item is one of the three element kinds whose `switch` case sets
`hasMessages` (`text`, `face`, `markdown`; lines 264, 274, 293). -/
def isTFMItem (i : SendItem) : Bool :=
  match normItem i with
  | .text _ => true
  | .face _ => true
  | .markdown _ => true
  | _ => false

/-- The overwrite that a message list performs on `messages.msg_id`: the last
`reply` element's id, if any (the `reply` case is the only writer,
line 238). -/
def msgsMsgIdEffect : List SendItem → Option String
  | [] => none
  | i :: rest =>
    match msgsMsgIdEffect rest with
    | some v => some v
    | none =>
      match normItem i with
      | .reply m => some m
      | _ => none

/-- The overwrite that a message list performs on `files.msg_id`: the value
written by the last writer, where a `reply` writes its own id (line 239) and a
media element writes the quote reference's id (line 283). -/
def filesMsgIdEffect (source : Quotable) : List SendItem → Option (Option String)
  | [] => none
  | i :: rest =>
    match filesMsgIdEffect source rest with
    | some v => some v
    | none =>
      match normItem i with
      | .reply m => some (some m)
      | .image _ => some source.message_id
      | .audio _ => some source.message_id
      | .video _ => some source.message_id
      | _ => none


/-! Helper lemmas. -/

theorem idxOf?_lt_length {c : Char} : ∀ {l : List Char} {j : Nat},
    idxOf? c l = some j → j < l.length := by
  intro l
  induction l with
  | nil => intro j h; simp [idxOf?] at h
  | cons x rest ih =>
    intro j h
    simp only [idxOf?] at h
    split at h
    · cases h; simp
    · split at h
      · exact absurd h (by simp)
      · cases h
        have := ih (by assumption)
        simp only [List.length_cons]
        omega

theorem scanMatch_bound : ∀ (l : List Char) (pos i : Nat) (m : List Char),
    scanMatch l pos = some (i, m) →
    pos ≤ i ∧ (i - pos) + m.length ≤ l.length ∧ 2 ≤ m.length := by
  intro l
  induction l with
  | nil => intro pos i m h; simp [scanMatch] at h
  | cons c rest ih =>
    intro pos i m h
    simp only [scanMatch] at h
    split at h
    · have := ih (pos + 1) i m h
      simp only [List.length_cons]
      omega
    · rename_i cl hcl
      split at h
      · have := ih (pos + 1) i m h
        simp only [List.length_cons]
        omega
      · rename_i j hj
        have hjl := idxOf?_lt_length hj
        split at h
        · have := ih (pos + 1) i m h
          simp only [List.length_cons]
          omega
        · have h1 : pos = i ∧ c :: rest.take (j + 1) = m := by
            constructor
            · exact congrArg Prod.fst (Option.some.inj h)
            · exact congrArg Prod.snd (Option.some.inj h)
          obtain ⟨hpi, hm⟩ := h1
          subst hpi
          subst hm
          simp only [List.length_cons, List.length_take]
          omega

theorem findTag_bound {l : List Char} {i : Nat} {m : List Char}
    (h : findTag l = some (i, m)) :
    i + m.length ≤ l.length ∧ 2 ≤ m.length := by
  have := scanMatch_bound l 0 i m h
  omega

theorem parseGo_fuel_irrel (mentions : Option (List Mention)) :
    ∀ (n n2 : Nat) (template : List Char) (acc : List Elem) (brief : String),
    template.length ≤ n → template.length ≤ n2 →
    parseGo mentions n template acc brief = parseGo mentions n2 template acc brief := by
  intro n
  induction n with
  | zero =>
    intro n2 template acc brief h1 h2
    have ht : template = [] := by
      cases template with
      | nil => rfl
      | cons c rest => simp at h1
    subst ht
    cases n2 with
    | zero => rfl
    | succ n2 => simp [parseGo, findTag, scanMatch]
  | succ n ih =>
    intro n2 template acc brief h1 h2
    cases n2 with
    | zero =>
      have ht : template = [] := by
        cases template with
        | nil => rfl
        | cons c rest => simp at h2
      subst ht
      simp [parseGo, findTag, scanMatch]
    | succ n2 =>
      simp only [parseGo]
      cases hf : findTag template with
      | none => rfl
      | some im =>
        obtain ⟨i, m⟩ := im
        have hb := findTag_bound hf
        have hlen : (template.drop (i + m.length)).length ≤ n ∧
            (template.drop (i + m.length)).length ≤ n2 := by
          simp only [List.length_drop]
          omega
        simp only []
        split
        · cases hr : resolveMatch mentions m with
          | error e => rfl
          | ok em => exact ih n2 _ _ _ hlen.1 hlen.2
        · exact ih n2 _ _ _ hlen.1 hlen.2

theorem stepItem_seeds (src : Quotable) (st : FmtState) (i : SendItem) :
    (stepItem src st i).messages.msg_seq = st.messages.msg_seq ∧
    (stepItem src st i).messages.timestamp = st.messages.timestamp ∧
    (stepItem src st i).files.msg_seq = st.files.msg_seq ∧
    (stepItem src st i).files.timestamp = st.files.timestamp := by
  cases i with
  | str s => simp [stepItem, normItem, formatElem]
  | elem e => cases e <;> simp [stepItem, normItem, formatElem, mediaUpdate]

theorem foldl_seeds (src : Quotable) :
    ∀ (msg : List SendItem) (st : FmtState),
    ((msg.foldl (stepItem src) st).messages.msg_seq = st.messages.msg_seq) ∧
    ((msg.foldl (stepItem src) st).messages.timestamp = st.messages.timestamp) ∧
    ((msg.foldl (stepItem src) st).files.msg_seq = st.files.msg_seq) ∧
    ((msg.foldl (stepItem src) st).files.timestamp = st.files.timestamp) := by
  intro msg
  induction msg with
  | nil => intro st; simp
  | cons i rest ih =>
    intro st
    simp only [List.foldl_cons]
    have h1 := ih (stepItem src st i)
    have h2 := stepItem_seeds src st i
    exact ⟨h1.1.trans h2.1, h1.2.1.trans h2.2.1, h1.2.2.1.trans h2.2.2.1,
      h1.2.2.2.trans h2.2.2.2⟩

theorem format_files (msg : List SendItem) (src : Quotable) (env : Env) :
    (format msg src env).files = (msg.foldl (stepItem src) (initState src env)).files := by
  simp [format]

theorem format_hasMessages (msg : List SendItem) (src : Quotable) (env : Env) :
    (format msg src env).hasMessages =
      (msg.foldl (stepItem src) (initState src env)).hasMessages := by
  simp [format]

theorem format_hasFiles (msg : List SendItem) (src : Quotable) (env : Env) :
    (format msg src env).hasFiles =
      (msg.foldl (stepItem src) (initState src env)).hasFiles := by
  simp [format]

theorem format_messages_msg_id (msg : List SendItem) (src : Quotable) (env : Env) :
    (format msg src env).messages.msg_id =
      (msg.foldl (stepItem src) (initState src env)).messages.msg_id := by
  simp only [format]
  split <;> rfl

theorem format_messages_msg_seq (msg : List SendItem) (src : Quotable) (env : Env) :
    (format msg src env).messages.msg_seq =
      (msg.foldl (stepItem src) (initState src env)).messages.msg_seq := by
  simp only [format]
  split <;> rfl

theorem format_messages_timestamp (msg : List SendItem) (src : Quotable) (env : Env) :
    (format msg src env).messages.timestamp =
      (msg.foldl (stepItem src) (initState src env)).messages.timestamp := by
  simp only [format]
  split <;> rfl

theorem format_messages_content (msg : List SendItem) (src : Quotable) (env : Env) :
    (format msg src env).messages.content =
      (msg.foldl (stepItem src) (initState src env)).messages.content := by
  simp only [format]
  split <;> rfl

theorem stepItem_messages_msg_id (src : Quotable) (st : FmtState) (i : SendItem) :
    (stepItem src st i).messages.msg_id =
      (msgsMsgIdEffect [i]).or st.messages.msg_id := by
  cases i with
  | str s => simp [stepItem, normItem, formatElem, msgsMsgIdEffect, Option.or]
  | elem e =>
    cases e <;>
      simp [stepItem, normItem, formatElem, mediaUpdate, msgsMsgIdEffect, Option.or]

theorem foldl_messages_msg_id (src : Quotable) :
    ∀ (msg : List SendItem) (st : FmtState),
    (msg.foldl (stepItem src) st).messages.msg_id =
      (msgsMsgIdEffect msg).or st.messages.msg_id := by
  intro msg
  induction msg with
  | nil => intro st; simp [msgsMsgIdEffect, Option.or]
  | cons i rest ih =>
    intro st
    simp only [List.foldl_cons]
    rw [ih]
    have hstep := stepItem_messages_msg_id src st i
    cases h : msgsMsgIdEffect rest with
    | some v => simp [msgsMsgIdEffect, h, Option.or]
    | none =>
      simp only [msgsMsgIdEffect, h, Option.or]
      rw [hstep]
      cases hn : normItem i <;> simp [msgsMsgIdEffect, hn, Option.or]

theorem stepItem_files_msg_id (src : Quotable) (st : FmtState) (i : SendItem) :
    (stepItem src st i).files.msg_id =
      (filesMsgIdEffect src [i]).getD st.files.msg_id := by
  cases i with
  | str s => simp [stepItem, normItem, formatElem, filesMsgIdEffect]
  | elem e =>
    cases e <;>
      simp [stepItem, normItem, formatElem, mediaUpdate, filesMsgIdEffect]

theorem foldl_files_msg_id (src : Quotable) :
    ∀ (msg : List SendItem) (st : FmtState),
    (msg.foldl (stepItem src) st).files.msg_id =
      (filesMsgIdEffect src msg).getD st.files.msg_id := by
  intro msg
  induction msg with
  | nil => intro st; simp [filesMsgIdEffect]
  | cons i rest ih =>
    intro st
    simp only [List.foldl_cons]
    rw [ih]
    have hstep := stepItem_files_msg_id src st i
    cases h : filesMsgIdEffect src rest with
    | some v => simp [filesMsgIdEffect, h]
    | none =>
      simp only [filesMsgIdEffect, h]
      rw [hstep]
      cases hn : normItem i <;> simp [filesMsgIdEffect, hn]

theorem msgsMsgIdEffect_cons (i : SendItem) (rest : List SendItem) :
    msgsMsgIdEffect (i :: rest) = (msgsMsgIdEffect rest).or (msgsMsgIdEffect [i]) := by
  cases hr : msgsMsgIdEffect rest <;> cases hn : normItem i <;>
    simp [msgsMsgIdEffect, hr, hn, Option.or]

theorem filesMsgIdEffect_cons (src : Quotable) (i : SendItem) (rest : List SendItem) :
    filesMsgIdEffect src (i :: rest) =
      (filesMsgIdEffect src rest).or (filesMsgIdEffect src [i]) := by
  cases hr : filesMsgIdEffect src rest <;> cases hn : normItem i <;>
    simp [filesMsgIdEffect, hr, hn, Option.or]

theorem msgsMsgIdEffect_append (a b : List SendItem) :
    msgsMsgIdEffect (a ++ b) = (msgsMsgIdEffect b).or (msgsMsgIdEffect a) := by
  induction a with
  | nil =>
    cases hb : msgsMsgIdEffect b <;> simp [msgsMsgIdEffect, hb, Option.or]
  | cons i rest ih =>
    rw [List.cons_append, msgsMsgIdEffect_cons, ih, msgsMsgIdEffect_cons]
    simp only [show msgsMsgIdEffect ([] : List SendItem) = none from rfl,
      Option.none_or, Option.or_assoc]
    rw [msgsMsgIdEffect_cons i rest]

theorem filesMsgIdEffect_append (src : Quotable) (a b : List SendItem) :
    filesMsgIdEffect src (a ++ b) =
      (filesMsgIdEffect src b).or (filesMsgIdEffect src a) := by
  induction a with
  | nil =>
    cases hb : filesMsgIdEffect src b <;> simp [filesMsgIdEffect, hb, Option.or]
  | cons i rest ih =>
    rw [List.cons_append, filesMsgIdEffect_cons, ih, filesMsgIdEffect_cons]
    simp only [show filesMsgIdEffect src ([] : List SendItem) = none from rfl,
      Option.none_or, Option.or_assoc]
    rw [filesMsgIdEffect_cons src i rest]

theorem msgsMsgIdEffect_eq_none (l : List SendItem)
    (h : ∀ i ∈ l, isReplyItem i = false) : msgsMsgIdEffect l = none := by
  induction l with
  | nil => simp [msgsMsgIdEffect]
  | cons i rest ih =>
    simp only [msgsMsgIdEffect]
    rw [ih (fun j hj => h j (List.mem_cons_of_mem i hj))]
    have hi := h i (List.mem_cons_self i rest)
    cases hn : normItem i <;> simp_all [isReplyItem]

theorem filesMsgIdEffect_eq_none (src : Quotable) (l : List SendItem)
    (h1 : ∀ i ∈ l, isReplyItem i = false) (h2 : ∀ i ∈ l, isMediaItem i = false) :
    filesMsgIdEffect src l = none := by
  induction l with
  | nil => simp [filesMsgIdEffect]
  | cons i rest ih =>
    simp only [filesMsgIdEffect]
    rw [ih (fun j hj => h1 j (List.mem_cons_of_mem i hj))
        (fun j hj => h2 j (List.mem_cons_of_mem i hj))]
    have hr := h1 i (List.mem_cons_self i rest)
    have hm := h2 i (List.mem_cons_self i rest)
    cases hn : normItem i <;> simp_all [isReplyItem, isMediaItem]

theorem filesMsgIdEffect_noreply (src : Quotable) (l : List SendItem)
    (h : ∀ i ∈ l, isReplyItem i = false) :
    filesMsgIdEffect src l = none ∨ filesMsgIdEffect src l = some src.message_id := by
  induction l with
  | nil => left; simp [filesMsgIdEffect]
  | cons i rest ih =>
    simp only [filesMsgIdEffect]
    cases hr : filesMsgIdEffect src rest with
    | some v =>
      rcases ih (fun j hj => h j (List.mem_cons_of_mem i hj)) with h0 | h0 <;>
        rw [hr] at h0
      · exact absurd h0 (by simp)
      · right; simpa using h0
    | none =>
      have hi := h i (List.mem_cons_self i rest)
      cases hn : normItem i <;> simp_all [isReplyItem]

theorem filesMsgIdEffect_ne_none_of_media (src : Quotable) (l : List SendItem)
    (h : ∃ i ∈ l, isMediaItem i = true) : filesMsgIdEffect src l ≠ none := by
  induction l with
  | nil => simp at h
  | cons i rest ih =>
    simp only [filesMsgIdEffect]
    cases hr : filesMsgIdEffect src rest with
    | some v => simp
    | none =>
      obtain ⟨j, hj, hjm⟩ := h
      rcases List.mem_cons.mp hj with hj0 | hj0
      · subst hj0
        cases hn : normItem j <;> simp_all [isMediaItem]
      · exact absurd hr (ih ⟨j, hj0, hjm⟩)

theorem filesMsgIdEffect_of_media (src : Quotable) (l : List SendItem)
    (h1 : ∀ i ∈ l, isReplyItem i = false) (h2 : ∃ i ∈ l, isMediaItem i = true) :
    filesMsgIdEffect src l = some src.message_id := by
  rcases filesMsgIdEffect_noreply src l h1 with h0 | h0
  · exact absurd h0 (filesMsgIdEffect_ne_none_of_media src l h2)
  · exact h0

theorem stepItem_buttons (src : Quotable) (st : FmtState) (i : SendItem) :
    (stepItem src st i).buttons = st.buttons ++ btnOf i := by
  cases i with
  | str s => simp [stepItem, normItem, formatElem, btnOf]
  | elem e => cases e <;> simp [stepItem, normItem, formatElem, mediaUpdate, btnOf]

theorem foldl_buttons (src : Quotable) :
    ∀ (msg : List SendItem) (st : FmtState),
    (msg.foldl (stepItem src) st).buttons = st.buttons ++ buttonsOf msg := by
  intro msg
  induction msg with
  | nil => intro st; simp [buttonsOf]
  | cons i rest ih =>
    intro st
    simp only [List.foldl_cons, buttonsOf]
    rw [ih, stepItem_buttons, List.append_assoc]

theorem chunk4_flatten {α : Type} : ∀ (l : List α), (chunk4 l).flatten = l := by
  intro l
  induction l using chunk4.induct with
  | case1 => simp [chunk4]
  | case2 a => simp [chunk4]
  | case3 a b => simp [chunk4]
  | case4 a b c => simp [chunk4]
  | case5 a b c d rest ih => simp [chunk4, ih]

theorem chunk4_length {α : Type} : ∀ (l : List α),
    (chunk4 l).length = (l.length + 3) / 4 := by
  intro l
  induction l using chunk4.induct with
  | case1 => simp [chunk4]
  | case2 a => simp [chunk4]
  | case3 a b => simp [chunk4]
  | case4 a b c => simp [chunk4]
  | case5 a b c d rest ih =>
    simp only [chunk4, List.length_cons]
    rw [ih]
    omega

theorem chunk4_sizes {α : Type} : ∀ (l : List α), ∀ r ∈ chunk4 l,
    r.length ≤ 4 ∧ r ≠ [] := by
  intro l
  induction l using chunk4.induct with
  | case1 => simp [chunk4]
  | case2 a => simp [chunk4]
  | case3 a b => simp [chunk4]
  | case4 a b c => simp [chunk4]
  | case5 a b c d rest ih =>
    intro r hr
    simp only [chunk4, List.mem_cons] at hr
    rcases hr with hr | hr
    · subst hr; simp
    · exact ih r hr

theorem chunk4_ne_nil {α : Type} (l : List α) (h : l ≠ []) : chunk4 l ≠ [] := by
  intro h0
  have := chunk4_length l
  rw [h0] at this
  simp at this
  cases l with
  | nil => exact h rfl
  | cons a rest => simp at this; omega

theorem chunk4_dropLast {α : Type} : ∀ (l : List α),
    ∀ r ∈ (chunk4 l).dropLast, r.length = 4 := by
  intro l
  induction l using chunk4.induct with
  | case1 => simp [chunk4]
  | case2 a => simp [chunk4]
  | case3 a b => simp [chunk4]
  | case4 a b c => simp [chunk4]
  | case5 a b c d rest ih =>
    intro r hr
    simp only [chunk4] at hr
    cases hc : chunk4 rest with
    | nil => rw [hc] at hr; simp at hr
    | cons y ys =>
      rw [hc] at hr
      rw [List.dropLast_cons₂] at hr
      rcases List.mem_cons.mp hr with hr0 | hr0
      · subst hr0; rfl
      · exact ih r (by rw [hc]; exact hr0)

theorem append_ne_empty_right (a b : String) (h : b ≠ "") : a ++ b ≠ "" := by
  intro h0
  have hd := congrArg String.data h0
  rw [String.data_append] at hd
  have hb : b.data = [] := (List.append_eq_nil.mp hd).2
  exact h (String.ext hb)

theorem jsAppendContent_ne_empty (cur add : String) (h : add ≠ "") :
    jsAppendContent cur add ≠ "" := by
  unfold jsAppendContent
  split
  · exact h
  · exact append_ne_empty_right cur add h

theorem stepItem_atlink (src : Quotable) (st : FmtState) (i : SendItem)
    (h : isAtOrLinkItem i = true) :
    (stepItem src st i).hasMessages = st.hasMessages ∧
    (stepItem src st i).hasFiles = st.hasFiles ∧
    (stepItem src st i).messages.content ≠ "" := by
  cases i with
  | str s => simp [isAtOrLinkItem, normItem] at h
  | elem e =>
    cases e
    · simp [isAtOrLinkItem, normItem] at h
    · refine ⟨rfl, rfl, ?_⟩
      simp only [stepItem, normItem, formatElem]
      exact jsAppendContent_ne_empty _ _ (append_ne_empty_right _ _ (by decide))
    · refine ⟨rfl, rfl, ?_⟩
      simp only [stepItem, normItem, formatElem]
      exact jsAppendContent_ne_empty _ _ (append_ne_empty_right _ _ (by decide))
    · simp [isAtOrLinkItem, normItem] at h
    · simp [isAtOrLinkItem, normItem] at h
    · simp [isAtOrLinkItem, normItem] at h
    · simp [isAtOrLinkItem, normItem] at h
    · simp [isAtOrLinkItem, normItem] at h
    · simp [isAtOrLinkItem, normItem] at h
    · simp [isAtOrLinkItem, normItem] at h
    · simp [isAtOrLinkItem, normItem] at h

theorem foldl_atlink_flags (src : Quotable) :
    ∀ (msg : List SendItem) (st : FmtState), (∀ i ∈ msg, isAtOrLinkItem i = true) →
    (msg.foldl (stepItem src) st).hasMessages = st.hasMessages ∧
    (msg.foldl (stepItem src) st).hasFiles = st.hasFiles := by
  intro msg
  induction msg with
  | nil => intro st _; exact ⟨rfl, rfl⟩
  | cons i rest ih =>
    intro st h
    simp only [List.foldl_cons]
    have hstep := stepItem_atlink src st i (h i (List.mem_cons_self i rest))
    have hrest := ih (stepItem src st i) (fun j hj => h j (List.mem_cons_of_mem i hj))
    exact ⟨hrest.1.trans hstep.1, hrest.2.trans hstep.2.1⟩

theorem foldl_atlink_content (src : Quotable) :
    ∀ (msg : List SendItem) (st : FmtState), (∀ i ∈ msg, isAtOrLinkItem i = true) →
    (msg ≠ [] ∨ st.messages.content ≠ "") →
    (msg.foldl (stepItem src) st).messages.content ≠ "" := by
  intro msg
  induction msg with
  | nil =>
    intro st _ h0
    rcases h0 with h0 | h0
    · exact absurd rfl h0
    · exact h0
  | cons i rest ih =>
    intro st h _
    simp only [List.foldl_cons]
    have hstep := stepItem_atlink src st i (h i (List.mem_cons_self i rest))
    exact ih (stepItem src st i) (fun j hj => h j (List.mem_cons_of_mem i hj))
      (Or.inr hstep.2.2)

theorem randomInt_bounds (r : Nat) :
    1 ≤ randomInt 1 1000000 r ∧ randomInt 1 1000000 r ≤ 999999 := by
  unfold randomInt
  have : r % 999999 < 999999 := Nat.mod_lt _ (by norm_num)
  omega

theorem randomInt_surj (v : Nat) (h1 : 1 ≤ v) (h2 : v ≤ 999999) :
    randomInt 1 1000000 (v - 1) = v := by
  unfold randomInt
  have : (v - 1) % 999999 = v - 1 := Nat.mod_eq_of_lt (by omega)
  omega

theorem replaceFirstChars_of_not_contains (pat rep : List Char) :
    ∀ (l : List Char), containsChars l pat = false → replaceFirstChars pat rep l = l := by
  intro l
  induction l with
  | nil =>
    intro h
    simp only [containsChars] at h
    cases pat with
    | nil => simp at h
    | cons p ps => simp [replaceFirstChars, startsWithChars]
  | cons c rest ih =>
    intro h
    simp only [containsChars, Bool.or_eq_false_iff] at h
    simp [replaceFirstChars, h.1, ih h.2]

end Message

namespace Message

/-! Evaluations of the embedding on the spec's §8 examples, as consistency
evidence for the translation. -/

theorem parse_plain_text :
    parse ⟨some "hello", none, none⟩ =
      .ok ([⟨"text", [("text", JVal.str "hello")]⟩], "hello") := rfl

theorem parse_faceType_example :
    parse ⟨some "<faceType,faceId=3>", none, none⟩ =
      .ok ([⟨"face", [("id", JVal.str "3")]⟩], "<face:id=3>") := rfl

theorem parse_sticker_example :
    parse ⟨some "<sticker:7>", none, none⟩ =
      .ok ([⟨"face", [("id", JVal.str "7")]⟩], "<face:id=7>") := rfl

theorem parse_mention_found :
    parse ⟨some "<@!42>", some [[("id", "42"), ("user_name", "X")]], none⟩ =
      .ok ([⟨"at", [("id", JVal.str "42"), ("user_name", JVal.str "X")]⟩],
           "<at:id=42,user_name=X>") := rfl

theorem parse_mention_no_match :
    parse ⟨some "<@!42>", some [[("id", "1")]], none⟩ =
      .ok ([⟨"at", []⟩], "<at:>") := rfl

theorem parse_attachment_example :
    parse ⟨some "", none, some [⟨"image/png", [("url", "http://x")]⟩]⟩ =
      .ok ([⟨"image", [("url", JVal.str "http://x"), ("src", JVal.str "http://x")]⟩],
           "<$image,url=http://x>") := rfl

theorem parse_empty :
    parse ⟨some "", none, none⟩ = .ok ([], "") := rfl

theorem parse_unclosed_tag_is_text :
    parse ⟨some "<@!42", none, none⟩ =
      .ok ([⟨"text", [("text", JVal.str "<@!42")]⟩], "<@!42") := rfl

theorem format_reply_text_example :
    (format [.elem (.reply "A"), .elem (.text "hi")] ⟨some "Q", none⟩
        ⟨0, 0, 0, 0⟩).messages.msg_id = some "A" ∧
    (format [.elem (.reply "A"), .elem (.text "hi")] ⟨some "Q", none⟩
        ⟨0, 0, 0, 0⟩).files.msg_id = some "A" ∧
    (format [.elem (.reply "A"), .elem (.text "hi")] ⟨some "Q", none⟩
        ⟨0, 0, 0, 0⟩).messages.content = "hi" := ⟨rfl, rfl, rfl⟩

theorem format_text_image_flags :
    (format [.elem (.text "hi")] ⟨none, none⟩ ⟨0, 0, 0, 0⟩).hasMessages = true ∧
    (format [.elem (.text "hi")] ⟨none, none⟩ ⟨0, 0, 0, 0⟩).hasFiles = false ∧
    (format [.elem (.image "u")] ⟨none, none⟩ ⟨0, 0, 0, 0⟩).hasFiles = true ∧
    (format [.elem (.image "u")] ⟨none, none⟩ ⟨0, 0, 0, 0⟩).hasMessages = false :=
  ⟨rfl, rfl, rfl, rfl⟩

end Message




namespace Message

/-! Further helper lemmas for the tag-resolver claims. -/

theorem mk_data (s : String) : String.mk s.data = s := rfl

theorem startsWithChars_atbang {l : List Char}
    (h : startsWithChars ("@!".data) l = true) :
    startsWithChars ("@".data) l = true ∧
    startsWithChars ("faceType".data) l = false := by
  cases l with
  | nil => exact absurd h (by decide)
  | cons c cs =>
    simp only [show ("@!".data) = ['@', '!'] from rfl, startsWithChars,
      Bool.and_eq_true] at h
    obtain ⟨hc, _⟩ := h
    have hc2 : '@' = c := of_decide_eq_true hc
    subst hc2
    constructor
    · simp [show ("@".data) = ['@'] from rfl, startsWithChars]
    · simp [show ("faceType".data) = 'f' :: "aceType".data from rfl, startsWithChars]

theorem buildAttrs_str (xs : List String) :
    buildAttrs (xs.map AttrTok.str) =
      .ok (xs.map (fun a => (toLowerString (splitFirstEq a).1,
        JVal.str (trimQuote (splitFirstEq a).2)))) := by
  induction xs with
  | nil => rfl
  | cons a rest ih => simp [buildAttrs, attrEntry, ih]

end Message


namespace Message

/-! Claim theorems. -/

/-- C2: the spec states that a template containing `<@everyone>` decodes
normally into an `at` element with attributes `all: true`. On the code the
`@everyone` branch stores the raw array `['all', true]` in `attrs`
(line 159) and the attribute-building `map` then calls `.split` on that
array (line 168), which throws a `TypeError`: decoding a template containing
`<@everyone>` raises instead of returning. This theorem evaluates the decoder
at the failing input. -/
theorem c2_everyone_typeerror :
    parse ⟨some "<@everyone>", none, none⟩ =
      .error (.typeError "attr.split is not a function") := rfl

/-- C7: the spec states that a quoted run decodes to a `Text` element whose
`text` field equals the matched run (`Text{text}` of the data model). The code
instead pushes `{type: "text", data: {text: match}}` (lines 174-179): the run
is nested under a `data` wrapper and the element has no top-level `text`
field, unlike every other text push in the same function (lines 139-141,
183-187) and unlike what the encoder reads back (`elem.text`, line 260). The
brief does receive the run verbatim. This theorem evaluates the decoder at a
quoted-run input. -/
theorem c7_quoted_run_shape :
    parse ⟨some "\"hi\"", none, none⟩ =
      .ok ([⟨"text", [("data", JVal.obj [("text", JVal.str "\"hi\"")])]⟩],
           "\"hi\"") := rfl

/-- C9: each successful match search returns a non-empty run (at least two
characters) lying inside the template, so consuming past it strictly shrinks
the remaining string — the tokenizer loop of `parse` terminates on every
input. -/
theorem c9_scan_shrinks (t : List Char) (i : Nat) (m : List Char)
    (h : findTag t = some (i, m)) :
    2 ≤ m.length ∧ i + m.length ≤ t.length ∧
      (t.drop (i + m.length)).length < t.length := by
  have hb := findTag_bound h
  simp only [List.length_drop]
  omega

theorem c9_scan_shrinks_witness :
    2 ≤ ("<a>".data).length ∧ 0 + ("<a>".data).length ≤ ("<a>b".data).length ∧
      (("<a>b".data).drop (0 + ("<a>".data).length)).length < ("<a>b".data).length :=
  c9_scan_shrinks ("<a>b".data) 0 ("<a>".data) rfl

/-- C10: a non-empty message consisting only of `at` and/or `link` elements
leaves `hasMessages` and `hasFiles` false even though the transcript content
is non-empty: those two cases append to `messages.content` without setting
either flag (lines 242-257), while only `text`, `face` and `markdown` set
`hasMessages`. -/
theorem c10_at_link_flags (msg : List SendItem) (src : Quotable) (env : Env)
    (h1 : msg ≠ []) (h2 : ∀ i ∈ msg, isAtOrLinkItem i = true) :
    (format msg src env).hasMessages = false ∧
    (format msg src env).hasFiles = false ∧
    (format msg src env).messages.content ≠ "" := by
  have hf := foldl_atlink_flags src msg (initState src env) h2
  have hc := foldl_atlink_content src msg (initState src env) h2 (Or.inl h1)
  rw [format_hasMessages, format_hasFiles, format_messages_content]
  exact ⟨hf.1.trans rfl, hf.2.trans rfl, hc⟩

theorem c10_at_link_flags_witness :
    (format [.elem (.at none), .elem (.link "c")] ⟨none, none⟩
        ⟨0, 0, 0, 0⟩).hasMessages = false ∧
    (format [.elem (.at none), .elem (.link "c")] ⟨none, none⟩
        ⟨0, 0, 0, 0⟩).hasFiles = false ∧
    (format [.elem (.at none), .elem (.link "c")] ⟨none, none⟩
        ⟨0, 0, 0, 0⟩).messages.content ≠ "" :=
  c10_at_link_flags [.elem (.at none), .elem (.link "c")] ⟨none, none⟩
    ⟨0, 0, 0, 0⟩ (by decide) (by decide)

/-- C4 (counterexample): the claim says the timestamp is captured once and
shared, even when the clock advances between reads. The code reads
`Date.now()` once per aggregate (lines 220 and 225); with the clock at
1000 ms for the first read and 3000 ms for the second, the transcript payload
carries second 1 and the file payload second 3. -/
theorem c4_timestamp_cex :
    (format [] ⟨none, none⟩ ⟨0, 0, 1000, 3000⟩).messages.timestamp = 1 ∧
    (format [] ⟨none, none⟩ ⟨0, 0, 1000, 3000⟩).files.timestamp = 3 ∧
    (1 : Nat) ≠ 3 := ⟨rfl, rfl, by decide⟩

/-- C4 (amended): the two payloads carry the same timestamp whenever the two
`Date.now()` readings agree (in particular when the clock does not advance
between them); nothing later in the pass modifies either timestamp. -/
theorem c4_timestamp (msg : List SendItem) (src : Quotable) (env : Env)
    (h : env.ms1 = env.ms2) :
    (format msg src env).messages.timestamp = (format msg src env).files.timestamp := by
  have hs := foldl_seeds src msg (initState src env)
  rw [format_messages_timestamp, format_files, hs.2.1, hs.2.2.2]
  show toEpochSeconds env.ms1 = toEpochSeconds env.ms2
  rw [h]

theorem c4_timestamp_witness :
    (format [] ⟨none, none⟩ ⟨0, 0, 5, 5⟩).messages.timestamp =
      (format [] ⟨none, none⟩ ⟨0, 0, 5, 5⟩).files.timestamp :=
  c4_timestamp [] ⟨none, none⟩ ⟨0, 0, 5, 5⟩ rfl

/-- C5 (counterexample): the claim says every integer of [1, 1000000],
including 1000000 itself, is attainable for `msg_seq`. The code calls
`crypto.randomInt(1, 1000000)`, whose upper bound is exclusive: no outcome of
the random source makes the transcript payload's `msg_seq` equal 1000000. -/
theorem c5_msg_seq_cex :
    ¬ ∃ env : Env, (format [] ⟨none, none⟩ env).messages.msg_seq = 1000000 := by
  rintro ⟨env, h⟩
  rw [format_messages_msg_seq] at h
  simp only [List.foldl_nil] at h
  rw [show (initState ⟨none, none⟩ env).messages.msg_seq =
    randomInt 1 1000000 env.r1 from rfl] at h
  have := randomInt_bounds env.r1
  omega

/-- C5 (amended): each aggregate's `msg_seq` is an independently drawn random
integer of the inclusive range [1, 999999] (`randomInt`'s upper bound is
exclusive); every pair of values in that range, including 999999, is
attainable for some outcome of the random source, and the two draws are
independent. -/
theorem c5_msg_seq (msg : List SendItem) (src : Quotable) (env : Env) :
    (1 ≤ (format msg src env).messages.msg_seq ∧
      (format msg src env).messages.msg_seq ≤ 999999) ∧
    (1 ≤ (format msg src env).files.msg_seq ∧
      (format msg src env).files.msg_seq ≤ 999999) ∧
    (∀ v1 v2 : Nat, 1 ≤ v1 → v1 ≤ 999999 → 1 ≤ v2 → v2 ≤ 999999 →
      ∃ env2 : Env,
        (format msg src env2).messages.msg_seq = v1 ∧
        (format msg src env2).files.msg_seq = v2) := by
  have hseq : ∀ e : Env,
      (format msg src e).messages.msg_seq = randomInt 1 1000000 e.r1 ∧
      (format msg src e).files.msg_seq = randomInt 1 1000000 e.r2 := by
    intro e
    have hs := foldl_seeds src msg (initState src e)
    exact ⟨by rw [format_messages_msg_seq, hs.1]; rfl,
      by rw [format_files, hs.2.2.1]; rfl⟩
  refine ⟨?_, ?_, ?_⟩
  · rw [(hseq env).1]; exact randomInt_bounds env.r1
  · rw [(hseq env).2]; exact randomInt_bounds env.r2
  · intro v1 v2 h1 h2 h3 h4
    refine ⟨⟨v1 - 1, v2 - 1, env.ms1, env.ms2⟩, ?_, ?_⟩
    · rw [(hseq _).1]; exact randomInt_surj v1 h1 h2
    · rw [(hseq _).2]; exact randomInt_surj v2 h3 h4

theorem c5_msg_seq_witness :
    ∃ env2 : Env,
      (format [] ⟨none, none⟩ env2).messages.msg_seq = 999999 ∧
      (format [] ⟨none, none⟩ env2).files.msg_seq = 1 :=
  (c5_msg_seq [] ⟨none, none⟩ ⟨0, 0, 0, 0⟩).2.2 999999 1 (by decide) (by decide)
    (by decide) (by decide)

end Message


namespace Message

/-- C1 (counterexample): the claim says the last `reply` element's message id
ends up as `msg_id` of BOTH payloads regardless of which elements (including
media) follow it. But the media case re-assigns `files.msg_id` from the quote
reference (line 283): encoding `[reply "A", image "f.png"]` against a quote
reference `"Q"` leaves `files.msg_id = "Q"`, not `"A"`. -/
theorem c1_reply_msg_id_cex :
    (format [.elem (.reply "A"), .elem (.image "f.png")] ⟨some "Q", none⟩
        ⟨0, 0, 0, 0⟩).messages.msg_id = some "A" ∧
    (format [.elem (.reply "A"), .elem (.image "f.png")] ⟨some "Q", none⟩
        ⟨0, 0, 0, 0⟩).files.msg_id = some "Q" ∧
    (some "Q" : Option String) ≠ some "A" := ⟨rfl, rfl, by decide⟩

/-- C1 (amended): after encoding a message whose last `reply` element carries
id `mid`, the transcript payload's `msg_id` is `mid` whatever follows; the
file payload's `msg_id` is `mid` provided no `image`/`audio`/`video` element
appears after that `reply`, and is reset to the quote reference's message id
when one does. -/
theorem c1_reply_msg_id (pre post : List SendItem) (mid : String)
    (src : Quotable) (env : Env)
    (hpost : ∀ i ∈ post, isReplyItem i = false) :
    (format (pre ++ SendItem.elem (SendElem.reply mid) :: post) src env).messages.msg_id
        = some mid ∧
    ((∀ i ∈ post, isMediaItem i = false) →
      (format (pre ++ SendItem.elem (SendElem.reply mid) :: post) src env).files.msg_id
        = some mid) ∧
    ((∃ i ∈ post, isMediaItem i = true) →
      (format (pre ++ SendItem.elem (SendElem.reply mid) :: post) src env).files.msg_id
        = src.message_id) := by
  refine ⟨?_, ?_, ?_⟩
  · have e1 : msgsMsgIdEffect (SendItem.elem (SendElem.reply mid) :: post) = some mid := by
      rw [msgsMsgIdEffect_cons, msgsMsgIdEffect_eq_none post hpost]
      rfl
    rw [format_messages_msg_id, foldl_messages_msg_id, msgsMsgIdEffect_append, e1]
    rfl
  · intro hmed
    have e1 : filesMsgIdEffect src (SendItem.elem (SendElem.reply mid) :: post)
        = some (some mid) := by
      rw [filesMsgIdEffect_cons, filesMsgIdEffect_eq_none src post hpost hmed]
      rfl
    rw [format_files, foldl_files_msg_id, filesMsgIdEffect_append, e1]
    rfl
  · intro hmed
    have e1 : filesMsgIdEffect src (SendItem.elem (SendElem.reply mid) :: post)
        = some src.message_id := by
      rw [filesMsgIdEffect_cons, filesMsgIdEffect_of_media src post hpost hmed]
      rfl
    rw [format_files, foldl_files_msg_id, filesMsgIdEffect_append, e1]
    rfl

theorem c1_reply_msg_id_witness :
    (format ([] ++ SendItem.elem (SendElem.reply "A") :: []) ⟨some "Q", none⟩
        ⟨0, 0, 0, 0⟩).messages.msg_id = some "A" ∧
    (format ([] ++ SendItem.elem (SendElem.reply "A") :: []) ⟨some "Q", none⟩
        ⟨0, 0, 0, 0⟩).files.msg_id = some "A" := by
  have h := c1_reply_msg_id [] [] "A" ⟨some "Q", none⟩ ⟨0, 0, 0, 0⟩ (by simp)
  exact ⟨h.1, h.2.1 (by simp)⟩

/-- C3 (counterexample): the claim covers payloads whose optional `mentions`
list is absent. On such a payload a `<@!ID>` tag makes the code evaluate
`payload.mentions.find(...)` (line 155) on `undefined`, which throws a
`TypeError` — decode raises rather than producing an attribute-less `at`
element. -/
theorem c3_unresolved_mention_cex :
    parse ⟨some "<@!7>", none, none⟩ =
      .error (.typeError "Cannot read properties of undefined (reading find)") := rfl

/-- C3 (amended): when the `mentions` list is present and no record's `id`
equals the tag's id, the resolver returns normally with an `at` element whose
attribute set is empty (and the brief marker `<at:>`); when the `mentions`
list is absent, the same tag raises a `TypeError`. -/
theorem c3_unresolved_mention (ms : List Mention) (type0 : String)
    (attrs0 : List String) (h1 : strStartsWith type0 "@!" = true)
    (h2 : ∀ u ∈ ms, mentionId u ≠ some (type0.drop 2)) :
    resolveParts (some ms) type0 attrs0 = .ok (⟨"at", []⟩, "<at:>") ∧
    resolveParts none type0 attrs0 =
      .error (.typeError "Cannot read properties of undefined (reading find)") := by
  have hsw := startsWithChars_atbang (l := type0.data) h1
  have hface : strStartsWith type0 "faceType" = false := hsw.2
  have hat : strStartsWith type0 "@" = true := hsw.1
  have hfind : ms.find? (fun u => mentionId u == some (type0.drop 2)) = none := by
    rw [List.find?_eq_none]
    intro u hu
    simpa using h2 u hu
  constructor
  · have hres : resolveTag (some ms) type0 attrs0 = .ok ("at", []) := by
      simp only [resolveTag, hface, hat, h1, hfind]
      rfl
    simp only [resolveParts, hres]
    rfl
  · have hres : resolveTag none type0 attrs0 =
        .error (.typeError "Cannot read properties of undefined (reading find)") := by
      simp only [resolveTag, hface, hat, h1]
      rfl
    simp only [resolveParts, hres]

theorem c3_unresolved_mention_witness :
    resolveParts (some [[("id", "1"), ("user_name", "Bob")]]) "@!7" [] =
      .ok (⟨"at", []⟩, "<at:>") ∧
    resolveParts none "@!7" [] =
      .error (.typeError "Cannot read properties of undefined (reading find)") :=
  c3_unresolved_mention [[("id", "1"), ("user_name", "Bob")]] "@!7" []
    (by decide) (by decide)

end Message


namespace Message

/-- C6 (counterexample): the claim says only attribute keys exactly equal to
`faceId` are renamed and that keys merely containing it, and all values, are
untouched. The code instead runs `attr.replace('faceId', 'id')` on the whole
raw token (line 150): in `<faceType,ffaceId=1>` the key `ffaceId` — not equal
to `faceId` — becomes `fid`, where the claim predicts the key `ffaceid`. -/
theorem c6_face_rename_cex :
    parse ⟨some "<faceType,ffaceId=1>", none, none⟩ =
      .ok ([⟨"face", [("fid", JVal.str "1")]⟩], "<face:fid=1>") ∧
    ("fid" : String) ≠ "ffaceid" := ⟨rfl, by decide⟩

/-- C6 (amended): for a tag whose type starts with `faceType`, the element has
canonical type `face` and each raw attribute token has the FIRST occurrence of
the substring `faceId` — anywhere in the token, key or value — replaced by
`id` before the key/value split, key lower-casing and value quote-trimming;
tokens not containing `faceId` at all are processed unchanged. -/
theorem c6_face_rename (mentions : Option (List Mention)) (type0 : String)
    (attrs0 : List String) (h : strStartsWith type0 "faceType" = true) :
    resolveParts mentions type0 attrs0 =
      .ok (⟨"face", (attrs0.map (fun a => replaceFirstStr a "faceId" "id")).map
            (fun a2 => (toLowerString (splitFirstEq a2).1,
              JVal.str (trimQuote (splitFirstEq a2).2)))⟩,
        "<face:" ++ String.mk (joinWithChar ','
          ((attrs0.map (fun a => replaceFirstStr a "faceId" "id")).map String.data)) ++ ">") ∧
    ((∀ a ∈ attrs0, containsSub a "faceId" = false) →
      resolveParts mentions type0 attrs0 =
        .ok (⟨"face", attrs0.map
              (fun a2 => (toLowerString (splitFirstEq a2).1,
                JVal.str (trimQuote (splitFirstEq a2).2)))⟩,
          "<face:" ++ String.mk (joinWithChar ',' (attrs0.map String.data)) ++ ">")) := by
  have hres : resolveTag mentions type0 attrs0 =
      .ok ("face", (attrs0.map (fun a => replaceFirstStr a "faceId" "id")).map AttrTok.str) := by
    simp only [resolveTag, h]
    rfl
  have hmain : resolveParts mentions type0 attrs0 =
      .ok (⟨"face", (attrs0.map (fun a => replaceFirstStr a "faceId" "id")).map
            (fun a2 => (toLowerString (splitFirstEq a2).1,
              JVal.str (trimQuote (splitFirstEq a2).2)))⟩,
        "<face:" ++ String.mk (joinWithChar ','
          ((attrs0.map (fun a => replaceFirstStr a "faceId" "id")).map String.data)) ++ ">") := by
    simp only [resolveParts, hres]
    rw [buildAttrs_str (attrs0.map (fun a => replaceFirstStr a "faceId" "id"))]
    simp only [List.map_map]
    rfl
  refine ⟨hmain, ?_⟩
  intro hnc
  have hid : attrs0.map (fun a => replaceFirstStr a "faceId" "id") = attrs0 := by
    have := List.map_id attrs0
    rw [show (attrs0.map id) = attrs0 from List.map_id attrs0] at this
    apply List.map_congr_left ?_ |>.trans (List.map_id attrs0)
    intro a ha
    show replaceFirstStr a "faceId" "id" = id a
    unfold replaceFirstStr
    rw [replaceFirstChars_of_not_contains _ _ a.data (hnc a ha)]
    rfl
  rw [hid] at hmain
  exact hmain

end Message


namespace Message

theorem c6_face_rename_witness :
    resolveParts none "faceType" ["faceId=3", "x=1"] =
      .ok (⟨"face", [("id", JVal.str "3"), ("x", JVal.str "1")]⟩, "<face:id=3,x=1>") :=
  (c6_face_rename none "faceType" ["faceId=3", "x=1"] (by decide)).1

/-- C8: the buttons collected during the pass (in original order) are attached
to the transcript payload as a keyboard of consecutive rows of four, the last
row possibly shorter: the rows concatenate back to the button list, there are
`⌈b/4⌉` rows, every row but the last has exactly four buttons, and every row
is non-empty with at most four. -/
theorem c8_keyboard_rows (msg : List SendItem) (src : Quotable) (env : Env)
    (h : buttonsOf msg ≠ []) :
    ∃ rows : List (List String),
      (format msg src env).messages.keyboard = some rows ∧
      rows.flatten = buttonsOf msg ∧
      rows.length = ((buttonsOf msg).length + 3) / 4 ∧
      (∀ r ∈ rows.dropLast, r.length = 4) ∧
      (∀ r ∈ rows, r.length ≤ 4 ∧ r ≠ []) := by
  have hb2 : (msg.foldl (stepItem src) (initState src env)).buttons = buttonsOf msg := by
    rw [foldl_buttons src msg (initState src env)]
    rfl
  refine ⟨chunk4 (buttonsOf msg), ?_, chunk4_flatten _, chunk4_length _,
    chunk4_dropLast _, chunk4_sizes _⟩
  simp only [format]
  split
  · rename_i hemp
    rw [hb2] at hemp
    exact absurd (by simpa using hemp) h
  · simp [hb2]

theorem c8_keyboard_rows_witness :
    (format [.elem (.button "b1"), .elem (.button "b2"), .elem (.button "b3"),
        .elem (.button "b4"), .elem (.button "b5")] ⟨none, none⟩
        ⟨0, 0, 0, 0⟩).messages.keyboard = some [["b1", "b2", "b3", "b4"], ["b5"]] ∧
    (∃ rows : List (List String),
      (format [.elem (.button "b1"), .elem (.button "b2"), .elem (.button "b3"),
          .elem (.button "b4"), .elem (.button "b5")] ⟨none, none⟩
          ⟨0, 0, 0, 0⟩).messages.keyboard = some rows ∧
      rows.flatten = buttonsOf [.elem (.button "b1"), .elem (.button "b2"),
        .elem (.button "b3"), .elem (.button "b4"), .elem (.button "b5")] ∧
      rows.length = ((buttonsOf [.elem (.button "b1"), .elem (.button "b2"),
        .elem (.button "b3"), .elem (.button "b4"), .elem (.button "b5")]).length + 3) / 4 ∧
      (∀ r ∈ rows.dropLast, r.length = 4) ∧
      (∀ r ∈ rows, r.length ≤ 4 ∧ r ≠ [])) :=
  ⟨rfl, c8_keyboard_rows [.elem (.button "b1"), .elem (.button "b2"), .elem (.button "b3"),
      .elem (.button "b4"), .elem (.button "b5")] ⟨none, none⟩ ⟨0, 0, 0, 0⟩ (by decide)⟩

end Message


namespace Message

/-! Exact characterisation of the two dispatch flags: `hasMessages` is set
exactly by `text`/`face`/`markdown` cases and `hasFiles` exactly by media
cases; neither is ever cleared. -/

theorem stepItem_flags (src : Quotable) (st : FmtState) (i : SendItem) :
    (stepItem src st i).hasMessages = (st.hasMessages || isTFMItem i) ∧
    (stepItem src st i).hasFiles = (st.hasFiles || isMediaItem i) := by
  cases i with
  | str s => simp [stepItem, normItem, formatElem, isTFMItem, isMediaItem]
  | elem e =>
    cases e <;>
      simp [stepItem, normItem, formatElem, mediaUpdate, isTFMItem, isMediaItem]

theorem format_flags_iff (msg : List SendItem) (src : Quotable) (env : Env) :
    (format msg src env).hasMessages = msg.any isTFMItem ∧
    (format msg src env).hasFiles = msg.any isMediaItem := by
  have key : ∀ (l : List SendItem) (st : FmtState),
      (l.foldl (stepItem src) st).hasMessages = (st.hasMessages || l.any isTFMItem) ∧
      (l.foldl (stepItem src) st).hasFiles = (st.hasFiles || l.any isMediaItem) := by
    intro l
    induction l with
    | nil => intro st; simp
    | cons i rest ih =>
      intro st
      simp only [List.foldl_cons, List.any_cons]
      have hstep := stepItem_flags src st i
      have hrest := ih (stepItem src st i)
      rw [hrest.1, hrest.2, hstep.1, hstep.2, Bool.or_assoc, Bool.or_assoc]
      exact ⟨rfl, rfl⟩
  rw [format_hasMessages, format_hasFiles, (key msg _).1, (key msg _).2]
  exact ⟨rfl, rfl⟩

end Message
